import Mathlib

set_option linter.unusedVariables false

/-! Verification of the image-management core of the pouch daemon
(`apis/server/image_bridge.go`: the HTTP bridge handlers together with the
`mgr` ImageManager): candidate reference expansion, reference resolution,
tagging, removal, listing with filters, and history reconstruction, over an
explicit model of the in-memory reference store. -/

/-! ## String helpers (models of Go standard-library functions) -/

/-- Model of Go `strings.IndexRune`-based splitting: split a character list at
the first occurrence of `sep`, returning the parts before and after it, or
`none` when `sep` does not occur. -/
def splitFirst (sep : Char) : List Char → Option (List Char × List Char)
  | [] => none
  | c :: cs =>
    if c = sep then some ([], cs)
    else
      match splitFirst sep cs with
      | none => none
      | some (a, b) => some (c :: a, b)

/-- Model of Go `strings.ContainsAny`: does `cs` contain any character of
`chars`? -/
def containsAnyCh (cs : List Char) (chars : List Char) : Bool :=
  cs.any (fun c => chars.contains c)

/-- Prefix test on character lists, by structural recursion. -/
def prefixCh : List Char → List Char → Bool
  | [], _ => true
  | _ :: _, [] => false
  | a :: as, b :: bs => a == b && prefixCh as bs

/-- Model of Go `strings.HasPrefix`: is `p` a prefix of `s`? -/
def isPrefixOfStr (p s : String) : Bool := prefixCh p.data s.data

/-- Join character-list components with a separator character
(`strings.Join` on the component level). -/
def intercalateCh (sep : Char) : List (List Char) → List Char
  | [] => []
  | [x] => x
  | x :: xs => x ++ sep :: intercalateCh sep xs

/-- Split a character list on every occurrence of `sep`
(model of `strings.Split`). -/
def chSplit (sep : Char) : List Char → List (List Char)
  | [] => [[]]
  | c :: cs =>
    if c = sep then [] :: chSplit sep cs
    else
      match chSplit sep cs with
      | [] => [[c]]
      | g :: gs => (c :: g) :: gs

/-- One step of the lexical component processing of Go `path.Clean`:
empty and `.` components are dropped, `..` pops the previous component
(kept literally at the head of a relative path, dropped at the root of a
rooted path), and ordinary components are pushed. The accumulator holds the
output components in reverse order. -/
def pathCleanStep (rooted : Bool) (acc : List (List Char)) (c : List Char) : List (List Char) :=
  if c = [] ∨ c = ['.'] then acc
  else if c = ['.', '.'] then
    match acc with
    | [] => if rooted then [] else [['.', '.']]
    | a :: rest => if a = ['.', '.'] then c :: acc else rest
  else c :: acc

/-- Model of Go `path.Clean`: lexically simplify a slash-separated path. -/
def pathClean (s : String) : String :=
  if s = "" then "."
  else
    let cs := s.data
    let rooted : Bool := match cs with | '/' :: _ => true | _ => false
    let comps := chSplit '/' cs
    let out := comps.foldl (pathCleanStep rooted) []
    let body := String.mk (intercalateCh '/' out.reverse)
    if rooted then "/" ++ body
    else if body = "" then "." else body

/-- Model of Go `path.Join` restricted to two elements, as used by
`LookupImageReferences`: empty elements are ignored and the result is
cleaned. -/
def pathJoin (a b : String) : String :=
  if a ≠ "" then pathClean (a ++ "/" ++ b)
  else if b ≠ "" then pathClean b
  else ""

/-! ## Errors -/

/-- Errors surfaced by the image manager, following the daemon's error
taxonomy (`errtypes` and ad-hoc errors). -/
inductive Err where
  | notFound
  | invalidRef (msg : String)
  | invalidParam (msg : String)
  | conflict (msg : String)
  | other (msg : String)
deriving DecidableEq

/-- Model of `errtypes.IsNotfound` (wrapping is transparent in the model). -/
def isNotfoundErr : Err → Bool
  | Err.notFound => true
  | _ => false

/-- The message carried by an error (Go `err.Error()`). -/
def Err.msg : Err → String
  | Err.notFound => "not found"
  | Err.invalidRef m => m
  | Err.invalidParam m => m
  | Err.conflict m => m
  | Err.other m => m

/-! ## References -/

/-- Modelled from the spec: a structured reference (§3, §4.1 of the spec;
`pkg/reference` is not under src/). A reference has a locator (`name`,
registry host plus path), an optional tag and an optional digest; name-only,
tagged and digested shapes are the three cases of the spec. -/
structure NamedRef where
  name : String
  tag : Option String
  dig : Option String
deriving DecidableEq

/-- The string form of a reference: `name`, `name:tag`, `name@digest` or
`name:tag@digest` (Go `ref.String()`). -/
def NamedRef.refString (r : NamedRef) : String :=
  r.name
    ++ (match r.tag with | some t => ":" ++ t | none => "")
    ++ (match r.dig with | some d => "@" ++ d | none => "")

/-- Modelled from the spec: `reference.IsNamedOnly` — neither tag nor digest
(§3 "Name-only"). -/
def isNamedOnly (r : NamedRef) : Bool := r.tag.isNone && r.dig.isNone

/-- Modelled from the spec: `reference.IsNameTagged` — tagged and not
digested (§3 "Tagged"). -/
def isNameTagged (r : NamedRef) : Bool := r.tag.isSome && r.dig.isNone

/-- Modelled from the spec: `reference.TrimTagForDigest` — per §4.5 step 3,
"strip any tag when a digest is also present (digest takes precedence)";
a reference without a digest is unchanged. -/
def trimTagForDigest (r : NamedRef) : NamedRef :=
  if r.dig.isSome then { r with tag := none } else r

/-- Modelled from the spec: `reference.WithDefaultTagIfMissing` — §4.5
step 3, "default-tag the target if it specifies neither tag nor digest". -/
def withDefaultTagIfMissing (r : NamedRef) : NamedRef :=
  if r.tag.isNone && r.dig.isNone then { r with tag := some "latest" } else r

/-- Modelled from the spec: `reference.WithDigest` — derive the `name@digest`
alias of a reference (§3 invariant 2, §4.6). -/
def withDigest (r : NamedRef) (d : String) : NamedRef :=
  { name := r.name, tag := none, dig := some d }

/-- Split off a trailing `:tag` from a character list: the tag is everything
after the last `:` provided no `/` follows it (a `:` inside the domain part
is always before the first `/`). -/
def splitTag (cs : List Char) : List Char × Option (List Char) :=
  match splitFirst ':' cs.reverse with
  | none => (cs, none)
  | some (revTag, revName) =>
    if revTag.contains '/' then (cs, none)
    else (revName.reverse, some revTag.reverse)

/-- Modelled from the spec: the Reference Parser (§4.1; `pkg/reference.Parse`
is not under src/). Recognizes an optional `@digest` suffix and an optional
`:tag` suffix (a `:` in the domain part is not a tag separator), at most one
of each; absence of both makes the reference name-only; an empty name, tag
or digest is malformed and fails with an invalid-reference error. -/
def parse (s : String) : Except Err NamedRef :=
  match splitFirst '@' s.data with
  | some (beforeAt, afterAt) =>
    if afterAt = [] then Except.error (Err.invalidRef s)
    else
      match splitTag beforeAt with
      | (nameCs, tagOpt) =>
        if nameCs = [] then Except.error (Err.invalidRef s)
        else if tagOpt = some [] then Except.error (Err.invalidRef s)
        else Except.ok ⟨String.mk nameCs, tagOpt.map String.mk, some (String.mk afterAt)⟩
  | none =>
    match splitTag s.data with
    | (nameCs, tagOpt) =>
      if nameCs = [] then Except.error (Err.invalidRef s)
      else if tagOpt = some [] then Except.error (Err.invalidRef s)
      else Except.ok ⟨String.mk nameCs, tagOpt.map String.mk, none⟩

/-! ## The local reference store -/

/-- Modelled from the spec: one registered reference of the Local Reference
Store (§4.3; the store implementation is not under src/). `ref` is the stored
reference, `primary` its primary counterpart (`addReference(id, candidateRef,
storedRef)` registers `storedRef` with primary counterpart `candidateRef`);
the stored reference is itself primary exactly when the two coincide. -/
structure RefEntry where
  id : String
  primary : NamedRef
  ref : NamedRef
deriving DecidableEq

/-- The cached metadata of one image digest (`CtrdImageInfo`): digest, byte
size and the parts of the OCI image spec the listed operations read. Time
instants are modelled as integers (the daemon's format/parse round-trip of
creation times is lossless). -/
structure CtrdImageInfo where
  ID : String
  size : Int
  architecture : String
  os : String
  created : Int
deriving DecidableEq

/-- Modelled from the spec: the Local Reference Store (§4.3) — the reference
index and the metadata cache. -/
structure ImageStore where
  refs : List RefEntry
  cache : List (String × CtrdImageInfo)
deriving DecidableEq

/-- Modelled from the spec: `imageStore.Search` (§4.3, §4.4) — exact-match
reverse lookup on the reference's string form, extended with ID lookup: a
miss falls back to matching the input string as a prefix of a stored image
digest (short-ID and full-ID inputs, §4.4 step 3), returning the input as
the matched reference. Fails with not-found otherwise. -/
def ImageStore.search (st : ImageStore) (r : NamedRef) : Except Err (String × NamedRef) :=
  match st.refs.find? (fun e => e.ref.refString == r.refString) with
  | some e => Except.ok (e.id, e.ref)
  | none =>
    match st.refs.find? (fun e => isPrefixOfStr r.refString e.id) with
    | some e => Except.ok (e.id, r)
    | none => Except.error Err.notFound

/-- Modelled from the spec: `imageStore.GetPrimaryReferences` (§4.3) — all
primary references registered for a digest, in insertion order. -/
def ImageStore.getPrimaryReferences (st : ImageStore) (id : String) : List NamedRef :=
  (st.refs.filter (fun e => e.id == id && e.ref.refString == e.primary.refString)).map (·.ref)

/-- Modelled from the spec: `imageStore.GetReferences` (§4.3) — all
references (primary and searchable) registered for a digest. -/
def ImageStore.getReferences (st : ImageStore) (id : String) : List NamedRef :=
  (st.refs.filter (fun e => e.id == id)).map (·.ref)

/-- Modelled from the spec: `imageStore.GetPrimaryReference` (§4.3) — the
primary counterpart of an exactly-registered reference. -/
def ImageStore.getPrimaryReference (st : ImageStore) (r : NamedRef) : Except Err NamedRef :=
  match st.refs.find? (fun e => e.ref.refString == r.refString) with
  | some e => Except.ok e.primary
  | none => Except.error Err.notFound

/-- Modelled from the spec: `imageStore.AddReference` (§4.3) — register
`stored` under `id` with primary counterpart `primary`; fails if `stored` is
already mapped to a different id; re-registering under the same id updates
the entry in place. -/
def ImageStore.addReference (st : ImageStore) (id : String) (primary stored : NamedRef) :
    Except Err ImageStore :=
  if st.refs.any (fun e => e.ref.refString == stored.refString && e.id != id) then
    Except.error (Err.conflict "reference is already used by another image")
  else if st.refs.any (fun e => e.ref.refString == stored.refString && e.id == id) then
    Except.ok { st with
      refs := st.refs.map (fun e =>
        if e.ref.refString == stored.refString && e.id == id then
          { e with primary := primary, ref := stored }
        else e) }
  else
    Except.ok { st with refs := st.refs ++ [⟨id, primary, stored⟩] }

/-- Modelled from the spec: `imageStore.RemoveReference` (§4.3) — delete the
mapping; a no-op when absent. -/
def ImageStore.removeReference (st : ImageStore) (id : String) (r : NamedRef) : ImageStore :=
  { st with refs := st.refs.filter (fun e => !(e.id == id && e.ref.refString == r.refString)) }

/-- Modelled from the spec: `imageStore.GetCtrdImageInfo` (§4.3) — the cached
metadata of a digest, if present. -/
def ImageStore.getCtrdImageInfo (st : ImageStore) (id : String) : Option CtrdImageInfo :=
  (st.cache.find? (fun p => p.1 == id)).map (·.2)

/-- Modelled from the spec: `imageStore.ClearCtrdImageInfo` (§4.3) — evict
the cached metadata of a digest. -/
def ImageStore.clearCtrdImageInfo (st : ImageStore) (id : String) : ImageStore :=
  { st with cache := st.cache.filter (fun p => !(p.1 == id)) }

/-- Modelled from the spec: `imageStore.ListCtrdImageInfo` (§4.3) — all
cached metadata entries, in insertion order. -/
def ImageStore.listCtrdImageInfo (st : ImageStore) : List CtrdImageInfo :=
  st.cache.map (·.2)

/-- Well-formedness of the metadata cache: keys are distinct and each entry
is stored under its own digest. This is maintained by the store's cache
operations and assumed where listing re-reads the cache. -/
def cacheWF (st : ImageStore) : Prop :=
  (st.cache.map Prod.fst).Nodup ∧ ∀ p ∈ st.cache, (p.2).ID = p.1

instance (st : ImageStore) : Decidable (cacheWF st) := by
  unfold cacheWF; infer_instance

/-! ## Candidate reference expansion (`LookupImageReferences`) -/

/-- Does the input reference begin with an explicit registry domain? Per the
source: the part before the first `/` is a domain when it contains a `.` or a
`:`. -/
def hasExplicitDomain (ref : String) : Bool :=
  match splitFirst '/' ref.data with
  | some (dom, _) => containsAnyCh dom ['.', ':']
  | none => false

/-- `ImageManager.LookupImageReferences`: expand a user reference into the
ordered candidate list — one candidate per configured mirror (when the input
has no explicit domain), then the default-registry candidate, with the
default namespace prepended when the resolved registry is the default
registry and the remainder has no `/`. -/
def lookupImageReferences (mirrors : List String) (defaultRegistry defaultNamespace ref : String) :
    List String :=
  let domSplit :=
    match splitFirst '/' ref.data with
    | some (dom, rest) =>
      if containsAnyCh dom ['.', ':'] then (String.mk dom, String.mk rest) else ("", ref)
    | none => ("", ref)
  let registry := domSplit.1
  let remainder := domSplit.2
  let mirrored :=
    if registry = "" then (mirrors.map (fun reg => pathJoin reg ref), defaultRegistry)
    else ([], registry)
  let fullRefs := mirrored.1
  let registry := mirrored.2
  let remainder :=
    if registry = defaultRegistry ∧ containsAnyCh remainder.data ['/'] = false then
      defaultNamespace ++ "/" ++ remainder
    else remainder
  fullRefs ++ [registry ++ "/" ++ remainder]

/-- Modelled from the spec: `addDefaultRegistryIfMissing` (§4.4 step 2, §4.7
step 1; the helper is not under src/) — qualify a reference string with the
default registry when it has no explicit domain, and with the default
namespace when the resolved registry is the default registry and the
remainder has no `/`. Mirrors the domain handling of
`lookupImageReferences`. -/
def addDefaultRegistryIfMissing (ref defaultRegistry defaultNamespace : String) : String :=
  let domSplit :=
    match splitFirst '/' ref.data with
    | some (dom, rest) =>
      if containsAnyCh dom ['.', ':'] then (String.mk dom, String.mk rest) else ("", ref)
    | none => ("", ref)
  let registry := if domSplit.1 = "" then defaultRegistry else domSplit.1
  let remainder := domSplit.2
  let remainder :=
    if registry = defaultRegistry ∧ containsAnyCh remainder.data ['/'] = false then
      defaultNamespace ++ "/" ++ remainder
    else remainder
  registry ++ "/" ++ remainder

/-! ## Reference resolution (`CheckReference`) -/

/-- The primary-reference selection at the end of `CheckReference`
(image_bridge.go lines 884-900): for a name-only match, or a match whose
string form is a prefix of the resolved digest's string form, take the first
primary reference of the digest (not-found when there is none); otherwise
look up the matched reference's primary counterpart. -/
def checkPrimary (st : ImageStore) (actualID : String) (actualRef : NamedRef) :
    Except Err (String × NamedRef × NamedRef) :=
  if isNamedOnly actualRef = true ∨ isPrefixOfStr actualRef.refString actualID = true then
    match st.getPrimaryReferences actualID with
    | [] => Except.error Err.notFound
    | r :: _ => Except.ok (actualID, actualRef, r)
  else
    match st.getPrimaryReference actualRef with
    | Except.error e => Except.error e
    | Except.ok p => Except.ok (actualID, actualRef, p)

/-- `ImageManager.CheckReference`: resolve a user string to (image digest,
actual matched reference, primary reference). The first search uses the
parsed input unchanged; on a not-found miss the input is qualified with the
default registry/namespace and, only if that changed the string, re-parsed
and searched again. -/
def checkReference (st : ImageStore) (defaultRegistry defaultNamespace idOrRef : String) :
    Except Err (String × NamedRef × NamedRef) :=
  match parse idOrRef with
  | Except.error e => Except.error e
  | Except.ok namedRef =>
    match st.search namedRef with
    | Except.ok (actualID, actualRef) => checkPrimary st actualID actualRef
    | Except.error e =>
      if isNotfoundErr e = false then Except.error e
      else
        let newIdOrRef := addDefaultRegistryIfMissing idOrRef defaultRegistry defaultNamespace
        if newIdOrRef = idOrRef then Except.error e
        else
          match parse newIdOrRef with
          | Except.error e2 => Except.error e2
          | Except.ok namedRef2 =>
            match st.search namedRef2 with
            | Except.error e2 => Except.error e2
            | Except.ok (actualID, actualRef) => checkPrimary st actualID actualRef

/-- Claim-side restatement of the primary selection of `CheckReference`
(spec §4.4 step 3), for comparison with the source-side `checkPrimary`. -/
def primarySelectionSpec (st : ImageStore) (id : String) (matched : NamedRef) :
    Except Err (String × NamedRef × NamedRef) :=
  if isNamedOnly matched = true ∨ isPrefixOfStr matched.refString id = true then
    match st.getPrimaryReferences id with
    | [] => Except.error Err.notFound
    | first :: _ => Except.ok (id, matched, first)
  else
    (st.getPrimaryReference matched).map (fun p => (id, matched, p))

/-- Claim-side restatement of the two-pass resolution of `CheckReference`
(spec §4.4): search with the parsed input unchanged; on a not-found miss
qualify the input and search again only if qualification changed the string,
otherwise return the not-found error; select the primary on a hit in either
pass. -/
def checkReferenceSpec (st : ImageStore) (defaultRegistry defaultNamespace input : String) :
    Except Err (String × NamedRef × NamedRef) :=
  (parse input).bind (fun r =>
    match st.search r with
    | Except.ok (id, m) => primarySelectionSpec st id m
    | Except.error notFoundErr =>
      let qualified := addDefaultRegistryIfMissing input defaultRegistry defaultNamespace
      if qualified = input then Except.error notFoundErr
      else
        (parse qualified).bind (fun r2 =>
          (st.search r2).bind (fun p => primarySelectionSpec st p.1 p.2)))

/-! ## Image lookup and conversion -/

/-- The `types.ImageInfo` fields the listed operations read. Creation time is
an integer instant (see `CtrdImageInfo`). -/
structure ImageInfo where
  architecture : String
  createdAt : Int
  id : String
  os : String
  repoDigests : List String
  repoTags : List String
  size : Int
deriving DecidableEq

/-- The body of `containerdImageToImageInfo` once the cache entry is found:
classify the digest's references into tag-form and digest-form names (the
source's type switch on `reference.Tagged` / `reference.CanonicalDigested`)
and assemble the `ImageInfo`. -/
def mkImageInfo (st : ImageStore) (info : CtrdImageInfo) : ImageInfo :=
  let pair := (st.getReferences info.ID).foldl
    (fun (acc : List String × List String) r =>
      if r.tag.isSome then (acc.1 ++ [r.refString], acc.2)
      else if r.dig.isSome then (acc.1, acc.2 ++ [r.refString])
      else acc)
    ([], [])
  { architecture := info.architecture
    createdAt := info.created
    id := info.ID
    os := info.os
    repoDigests := pair.2
    repoTags := pair.1
    size := info.size }

/-- `ImageManager.containerdImageToImageInfo`: build an `ImageInfo` for a
digest from the metadata cache, failing with not-found when the cache has no
entry for it. -/
def containerdImageToImageInfo (st : ImageStore) (id : String) : Except Err ImageInfo :=
  match st.getCtrdImageInfo id with
  | none => Except.error Err.notFound
  | some info => Except.ok (mkImageInfo st info)

/-- `ImageManager.GetImage`: resolve a reference and convert the resolved
digest's cached metadata. -/
def getImage (st : ImageStore) (defaultRegistry defaultNamespace idOrRef : String) :
    Except Err ImageInfo :=
  match checkReference st defaultRegistry defaultNamespace idOrRef with
  | Except.error e => Except.error e
  | Except.ok (id, _, _) => containerdImageToImageInfo st id

/-- `ImageManager.ListReferences`: all primary references of a digest. -/
def listReferences (st : ImageStore) (imageID : String) : Except Err (List NamedRef) :=
  Except.ok (st.getPrimaryReferences imageID)

/-! ## History reconstruction (`ImageHistory`) -/

/-- One entry of the OCI image spec's `History` list (the fields the source
reads; `Created` is a unix-nano instant). -/
structure OciHistoryEntry where
  created : Int
  createdBy : String
  author : String
  comment : String
  emptyLayer : Bool
deriving DecidableEq

/-- One item of the `types.HistoryResultItem` output list. -/
structure HistoryResultItem where
  created : Int
  createdBy : String
  author : String
  comment : String
  emptyLayer : Bool
  id : String
  size : Int
deriving DecidableEq

/-- Error message for too few manifest layers (image_bridge.go line 833). -/
def historyTooFewMsg : String :=
  "number of manifest layers shouldn't be less than number of non-empty layer in history info"

/-- Error message for too many manifest layers (image_bridge.go line 844). -/
def historyTooManyMsg : String :=
  "number of manifest layers shouldn't be greater than number of non-empty layer in history info"

/-- The loop of `ImageManager.ImageHistory` (image_bridge.go lines 811-845),
processing the history entries in reversed (top-most-first) order. `layers`
holds the sizes of the manifest layers as reported by the content store; `j`
is the manifest layer pointer, starting at `layers.length - 1`: a non-empty
entry takes the size at `j` (failing when `j` is negative) and decrements
`j`, an empty-layer entry keeps size 0; after the loop `j` must be exactly
`-1`. -/
def imageHistoryLoop (layers : List Int) : List OciHistoryEntry → Int →
    Except Err (List HistoryResultItem)
  | [], j =>
    if j ≠ -1 then Except.error (Err.other historyTooManyMsg) else Except.ok []
  | e :: rest, j =>
    let item : HistoryResultItem :=
      ⟨e.created, e.createdBy, e.author, e.comment, e.emptyLayer, "<missing>", 0⟩
    if e.emptyLayer then
      match imageHistoryLoop layers rest j with
      | Except.error er => Except.error er
      | Except.ok items => Except.ok (item :: items)
    else if j < 0 then Except.error (Err.other historyTooFewMsg)
    else
      match layers.get? j.toNat with
      | none => Except.error (Err.other "layer info not found in content store")
      | some sz =>
        match imageHistoryLoop layers rest (j - 1) with
        | Except.error er => Except.error er
        | Except.ok items => Except.ok ({ item with size := sz } :: items)

/-- `ImageManager.ImageHistory`, as a function of the image's OCI history
(bottom-most first), its manifest layer sizes (bottom-most first) and its
config digest: run the reversed walk and annotate the first output item with
the config digest. -/
def imageHistory (hist : List OciHistoryEntry) (layers : List Int) (configDigest : String) :
    Except Err (List HistoryResultItem) :=
  match imageHistoryLoop layers hist.reverse ((layers.length : Int) - 1) with
  | Except.error e => Except.error e
  | Except.ok [] => Except.ok []
  | Except.ok (x :: xs) => Except.ok ({ x with id := configDigest } :: xs)

/-- The number of non-empty-layer entries of a history list. -/
def nonEmptyCount (l : List OciHistoryEntry) : Nat :=
  (l.filter (fun e => !e.emptyLayer)).length

/-- Claim-side walk (spec §4.10): over the reversed (top-most-first) history,
carrying the count `c` of manifest layers already consumed, a non-empty
entry gets the size of the manifest layer at index `layers.length - 1 - c`
and increments `c`; an empty-layer entry gets size 0. -/
def historySpecWalk (layers : List Int) : List OciHistoryEntry → Nat → List HistoryResultItem
  | [], _ => []
  | e :: rest, c =>
    ⟨e.created, e.createdBy, e.author, e.comment, e.emptyLayer, "<missing>",
      if e.emptyLayer then 0 else (layers.get? (layers.length - 1 - c)).getD 0⟩ ::
    historySpecWalk layers rest (if e.emptyLayer then c else c + 1)

/-- Claim-side result of history reconstruction (spec §4.10): the reversed
walk, with only the first (top-most) item carrying the config digest as its
identifier. -/
def historySpec (hist : List OciHistoryEntry) (layers : List Int) (configDigest : String) :
    List HistoryResultItem :=
  match historySpecWalk layers hist.reverse 0 with
  | [] => []
  | x :: xs => { x with id := configDigest } :: xs

/-! ## Removal (`RemoveImage`) -/

/-- The remote content-store client's `RemoveImage`, as an oracle mapping a
reference string to `none` (success) or a failure. -/
structure RemoveEnv where
  clientRemove : String → Option Err

/-- The outcome of `RemoveImage`: result, final store, emitted audit events
(name, reference, action) and the remote `RemoveImage` calls issued, in
order. -/
structure RemoveResult where
  res : Except Err Unit
  store : ImageStore
  events : List (String × String × String)
  remoteCalls : List String

/-- The must-force error of identity removal (image_bridge.go line 708). -/
def mustForceMsg (idOrRef : String) : String :=
  "Unable to remove the image \"" ++ idOrRef ++ "\" (must force) - image has serveral references"

/-- Modelled from the spec: `uniqueLocatorReference` (§4.8; the helper is not
under src/) — do all references share one locator? -/
def uniqueLocatorReference (refs : List NamedRef) : Bool :=
  match refs with
  | [] => true
  | r :: rest => rest.all (fun x => x.name == r.name)

/-- The identity-removal loop of `RemoveImage` (image_bridge.go lines
711-719): for each primary reference in order, remove it from the remote
store and then from the local index, stopping at and propagating the first
remote failure. Returns (result, store, remote calls issued). -/
def removeImageLoop (env : RemoveEnv) (id : String) :
    ImageStore → List NamedRef → Except Err Unit × ImageStore × List String
  | st, [] => (Except.ok (), st, [])
  | st, r :: rs =>
    match env.clientRemove r.refString with
    | some e => (Except.error e, st, [r.refString])
    | none =>
      let next := removeImageLoop env id (st.removeReference id r) rs
      (next.1, next.2.1, r.refString :: next.2.2)

/-- The deferred cleanup of `RemoveImage` (image_bridge.go lines 682-686):
after removal, evict the digest's cached metadata when no primary reference
remains. -/
def deferredCleanup (st : ImageStore) (id : String) : ImageStore :=
  if (st.getPrimaryReferences id).isEmpty then st.clearCtrdImageInfo id else st

/-- `ImageManager.RemoveImage`: resolve the reference; for an identity-style
input (name-only, or a string-prefix of the digest) refuse without force
unless all references of the digest share one locator, else remove every
primary reference (remote, then local, stopping at the first failure); for a
named input, strip the tag when a digest is present, then either fully
remove the primary reference (local index and remote store) or, for a
non-primary reference, remove it from the local index only and emit an
"untag" event. The deferred cleanup runs on every path that resolved the
reference. -/
def removeImage (env : RemoveEnv) (st : ImageStore)
    (defaultRegistry defaultNamespace idOrRef : String) (force : Bool) : RemoveResult :=
  match checkReference st defaultRegistry defaultNamespace idOrRef with
  | Except.error e => ⟨Except.error e, st, [], []⟩
  | Except.ok (id, namedRef, primaryRef) =>
    if isNamedOnly namedRef = true ∨ isPrefixOfStr namedRef.refString id = true then
      if force = false ∧ uniqueLocatorReference (st.getReferences id) = false then
        ⟨Except.error (Err.other (mustForceMsg idOrRef)), deferredCleanup st id, [], []⟩
      else
        let out := removeImageLoop env id st (st.getPrimaryReferences id)
        ⟨out.1, deferredCleanup out.2.1 id, [], out.2.2⟩
    else
      let namedRef' := trimTagForDigest namedRef
      if primaryRef.refString = namedRef'.refString then
        let st' := st.removeReference id primaryRef
        match env.clientRemove primaryRef.refString with
        | some e => ⟨Except.error e, deferredCleanup st' id, [], [primaryRef.refString]⟩
        | none => ⟨Except.ok (), deferredCleanup st' id, [], [primaryRef.refString]⟩
      else
        ⟨Except.ok (), deferredCleanup (st.removeReference id namedRef') id,
          [(namedRef'.refString, namedRef'.refString, "untag")], []⟩

/-! ## Tagging (`AddTag`) -/

/-- The containerd image handle fields `AddTag` reads: the config digest (the
image id) and the manifest target digest. -/
structure CtrdImg where
  configDigest : String
  targetDigest : String

/-- The external collaborators of `AddTag`: the remote client's `GetImage`
(by primary reference string) and `CreateImageReference` (by reference
string and target digest, `none` meaning success). -/
structure TagEnv where
  getImage : String → Except Err CtrdImg
  createRef : String → String → Option Err

/-- `ImageManager.fetchContainerdImage`: resolve to the primary reference and
fetch the containerd image under that name. -/
def fetchContainerdImage (env : TagEnv) (st : ImageStore)
    (defaultRegistry defaultNamespace idOrRef : String) : Except Err CtrdImg :=
  match checkReference st defaultRegistry defaultNamespace idOrRef with
  | Except.error e => Except.error e
  | Except.ok (_, _, p) => env.getImage p.refString

/-- `parseTagReference`: parse the target tag, wrapping a parse failure as
an invalid-parameter error, and default-tag the result. -/
def parseTagReference (targetTag : String) : Except Err NamedRef :=
  match parse targetTag with
  | Except.error e => Except.error (Err.invalidParam e.msg)
  | Except.ok r => Except.ok (withDefaultTagIfMissing r)

/-- `ImageManager.validateTagReference`: reject a digest-carrying target, and
reject a target that is already registered as the primary reference of some
image; a get-primary-reference failure (unregistered target) passes. -/
def validateTagReference (st : ImageStore) (ref : NamedRef) : Except Err Unit :=
  if ref.dig.isSome = true then
    Except.error (Err.invalidParam
      ("target tag reference (" ++ ref.refString ++ ") cannot contains any digest information"))
  else
    match st.getPrimaryReference ref with
    | Except.error _ => Except.ok ()
    | Except.ok p =>
      if p.refString = ref.refString then
        Except.error (Err.invalidParam
          ("the tag reference (" ++ ref.refString ++ ") has been used as reference"))
      else Except.ok ()

/-- `ImageManager.addReferenceIntoStore`: register the reference as primary;
when it is a name:tag reference, also register the derived name@digest alias
as searchable unless that exact reference already resolves. -/
def addReferenceIntoStore (st : ImageStore) (id : String) (ref : NamedRef) (dig : String) :
    Except Err ImageStore :=
  match st.addReference id ref ref with
  | Except.error e => Except.error e
  | Except.ok st' =>
    if isNameTagged ref = true then
      let digRef := withDigest ref dig
      match st'.search digRef with
      | Except.ok _ => Except.ok st'
      | Except.error e =>
        if isNotfoundErr e = true then st'.addReference id ref digRef else Except.ok st'
    else Except.ok st'

/-- The tail of `AddTag` after validation succeeded: fetch the source image,
register the tag as a primary reference locally, then create the matching
image-name record in the remote content store. -/
def addTagAfterValidation (env : TagEnv) (st : ImageStore)
    (defaultRegistry defaultNamespace : String) (tagRef : NamedRef) (sourceImage : String) :
    Except Err ImageStore :=
  match fetchContainerdImage env st defaultRegistry defaultNamespace sourceImage with
  | Except.error e => Except.error e
  | Except.ok img =>
    match addReferenceIntoStore st img.configDigest tagRef img.targetDigest with
    | Except.error e => Except.error e
    | Except.ok st' =>
      match env.createRef tagRef.refString img.targetDigest with
      | some e => Except.error e
      | none => Except.ok st'

/-- `ImageManager.AddTag`: qualify the target with the default
registry/namespace, parse and default-tag it, validate it, then register the
tag. -/
def addTag (env : TagEnv) (st : ImageStore) (defaultRegistry defaultNamespace : String)
    (sourceImage targetTag : String) : Except Err ImageStore :=
  let targetTag' := addDefaultRegistryIfMissing targetTag defaultRegistry defaultNamespace
  match parseTagReference targetTag' with
  | Except.error e => Except.error e
  | Except.ok tagRef =>
    match validateTagReference st tagRef with
    | Except.error e => Except.error e
    | Except.ok _ => addTagAfterValidation env st defaultRegistry defaultNamespace tagRef sourceImage

/-! ## Listing (`ListImages`) -/

/-- The filter arguments of `ListImages`, restricted to the accepted keys
`before`, `since`, `reference` (the source's `filter.Validate` admits exactly
these). -/
structure FilterArgs where
  before : List String
  since : List String
  reference : List String

/-- `created` is at or after the bound (Go `Created.Equal(t) ||
Created.After(t)`). -/
def atOrAfter (created t : Int) : Bool := created == t || decide (t < created)

/-- `created` is at or before the bound (Go `Created.Equal(t) ||
Created.Before(t)`). -/
def atOrBefore (created t : Int) : Bool := created == t || decide (created < t)

/-- Apply a bound check when the bound is present. -/
def boundSkip (b : Option Int) (f : Int → Bool) : Bool :=
  match b with
  | some t => f t
  | none => false

/-- `filterReference` (image_bridge.go lines 1095-1116): an empty pattern
list keeps all references; otherwise keep the references matching at least
one pattern. The glob matching of `filters.FamiliarMatch` is abstracted as
the `matcher` oracle (its malformed-pattern error path is not modelled). -/
def filterReference (matcher : String → String → Bool) (filter refs : List String) :
    List String :=
  if filter.isEmpty then refs
  else refs.filter (fun r => filter.any (fun p => matcher p r))

/-- The per-entry body of the listing loop of `ListImages` (image_bridge.go
lines 581-619): skip entries at-or-after the before bound or at-or-before
the since bound, convert the entry (skipping it when conversion fails), and
apply the reference filter, dropping the entry when neither filtered name
list retains a match. -/
def listImagesEntry (matcher : String → String → Bool) (st : ImageStore)
    (referenceFilter : List String) (beforeTime sinceTime : Option Int)
    (img : CtrdImageInfo) : Option ImageInfo :=
  if boundSkip beforeTime (atOrAfter img.created) = true then none
  else if boundSkip sinceTime (atOrBefore img.created) = true then none
  else
    match containerdImageToImageInfo st img.ID with
    | Except.error _ => none
    | Except.ok info =>
      if referenceFilter.isEmpty then some info
      else
        let digs := filterReference matcher referenceFilter info.repoDigests
        let tags := filterReference matcher referenceFilter info.repoTags
        if tags.length > 0 ∨ digs.length > 0 then
          some { info with repoTags := tags, repoDigests := digs }
        else none

/-- `ImageManager.ListImages`: refuse more than one `before` or `since`
value; resolve the `before`/`since` boundary images to creation instants;
then list the cached entries through the per-entry filter. -/
def listImages (matcher : String → String → Bool) (st : ImageStore)
    (defaultRegistry defaultNamespace : String) (f : FilterArgs) :
    Except Err (List ImageInfo) :=
  if f.before.length > 1 then
    Except.error (Err.invalidParam "can't use before filter more than one")
  else if f.since.length > 1 then
    Except.error (Err.invalidParam "can't use since filter more than one")
  else
    let beforeRes : Except Err (Option Int) :=
      match f.before with
      | [] => Except.ok none
      | b :: _ => (getImage st defaultRegistry defaultNamespace b).map (fun i => some i.createdAt)
    match beforeRes with
    | Except.error e => Except.error e
    | Except.ok beforeTime =>
      let sinceRes : Except Err (Option Int) :=
        match f.since with
        | [] => Except.ok none
        | s :: _ => (getImage st defaultRegistry defaultNamespace s).map (fun i => some i.createdAt)
      match sinceRes with
      | Except.error e => Except.error e
      | Except.ok sinceTime =>
        Except.ok (st.listCtrdImageInfo.filterMap
          (listImagesEntry matcher st f.reference beforeTime sinceTime))

/-! ## Helper lemmas -/

/-- The store's search only fails with the not-found error. -/
theorem ImageStore.search_error_eq (st : ImageStore) (r : NamedRef) (e : Err)
    (h : st.search r = Except.error e) : e = Err.notFound := by
  unfold ImageStore.search at h
  cases h1 : st.refs.find? (fun x => x.ref.refString == r.refString) with
  | some x => rw [h1] at h; cases h
  | none =>
    rw [h1] at h
    cases h2 : st.refs.find? (fun x => isPrefixOfStr r.refString x.id) with
    | some x => rw [h2] at h; cases h
    | none => rw [h2] at h; cases h; rfl

/-- The source-side primary selection agrees with the claim-side one. -/
theorem checkPrimary_eq_spec (st : ImageStore) (id : String) (m : NamedRef) :
    checkPrimary st id m = primarySelectionSpec st id m := by
  unfold checkPrimary primarySelectionSpec
  split
  · rfl
  · cases st.getPrimaryReference m <;> rfl

/-! ## C1 -/

/-- C1: `CheckReference` resolves a user string in two passes — the first
search uses the parsed input unchanged; on a not-found miss the input is
qualified with the default registry/namespace and searched again only when
qualification changed the string, otherwise the not-found error is returned;
on a hit in either pass, a name-only match or a match whose string form is a
prefix of the resolved digest's string form takes the first entry of
`getPrimaryReferences(id)` as its primary reference (not-found when that
list is empty), and any other match takes `getPrimaryReference(matchedRef)`. -/
theorem checkReference_matches_spec (st : ImageStore) (dr dn s : String) :
    checkReference st dr dn s = checkReferenceSpec st dr dn s := by
  unfold checkReference checkReferenceSpec
  cases hp : parse s with
  | error e => simp [Except.bind]
  | ok r =>
    simp only [Except.bind]
    cases hs : st.search r with
    | ok p =>
      obtain ⟨id, m⟩ := p
      exact checkPrimary_eq_spec st id m
    | error e =>
      have he := ImageStore.search_error_eq st r e hs
      subst he
      simp only [isNotfoundErr, Bool.true_eq_false, if_false]
      split
      · rfl
      · cases hq : parse (addDefaultRegistryIfMissing s dr dn) with
        | error e2 => rfl
        | ok r2 =>
          dsimp only
          cases hs2 : st.search r2 with
          | error e2 => rfl
          | ok p2 =>
            obtain ⟨id2, m2⟩ := p2
            exact checkPrimary_eq_spec st id2 m2

/-! ## C3 -/

/-- C3: for an input without an explicit registry domain,
`LookupImageReferences` returns one candidate per configured mirror in
configured order followed by a single default-registry candidate, and the
default namespace is prepended to the remainder whenever the resolved
registry equals the default registry and the remainder contains no `/`;
for an input with an explicit domain, the single candidate likewise gets
the default namespace exactly when its domain is the default registry and
the remainder has no `/`. -/
theorem lookupImageReferences_ordering (mirrors : List String) (dr dn ref : String) :
    (hasExplicitDomain ref = false →
      lookupImageReferences mirrors dr dn ref =
        mirrors.map (fun m => pathJoin m ref) ++
          [dr ++ "/" ++
            (if containsAnyCh ref.data ['/'] = false then dn ++ "/" ++ ref else ref)]) ∧
    (∀ dom rest, splitFirst '/' ref.data = some (dom, rest) →
      containsAnyCh dom ['.', ':'] = true →
      lookupImageReferences mirrors dr dn ref =
        [String.mk dom ++ "/" ++
          (if String.mk dom = dr ∧ containsAnyCh rest ['/'] = false then
            dn ++ "/" ++ String.mk rest
          else String.mk rest)]) := by
  constructor
  · intro h
    unfold hasExplicitDomain at h
    unfold lookupImageReferences
    cases hsp : splitFirst '/' ref.data with
    | none =>
      dsimp only
      by_cases hslash : containsAnyCh ref.data ['/'] = false
      · simp [hslash]
      · have hs' : containsAnyCh ref.data ['/'] = true := by
          revert hslash; cases containsAnyCh ref.data ['/'] <;> simp
        simp [hs']
    | some p =>
      obtain ⟨dom, rest⟩ := p
      rw [hsp] at h
      dsimp only at h
      simp only [h, Bool.false_eq_true, if_false]
      by_cases hslash : containsAnyCh ref.data ['/'] = false
      · simp [hslash]
      · have hs' : containsAnyCh ref.data ['/'] = true := by
          revert hslash; cases containsAnyCh ref.data ['/'] <;> simp
        simp [hs']
  · intro dom rest hsp hdom
    unfold lookupImageReferences
    rw [hsp]
    dsimp only
    simp only [hdom, if_true]
    have hne : ¬ (String.mk dom = "") := by
      intro hc
      have hd : dom = [] := congrArg String.data hc
      subst hd
      simp [containsAnyCh] at hdom
    rw [if_neg hne]
    simp

/-- C3 witness: the spec's concrete example — input `ubuntu`, mirrors
`[m1, m2]`, default registry `reg.example`, default namespace `library`. -/
theorem lookupImageReferences_ordering_witness :
    lookupImageReferences ["m1", "m2"] "reg.example" "library" "ubuntu" =
      ["m1/ubuntu", "m2/ubuntu", "reg.example/library/ubuntu"] := by
  rw [(lookupImageReferences_ordering ["m1", "m2"] "reg.example" "library" "ubuntu").1
    (by decide)]
  decide

/-! ## C10 -/

/-- C10: `ListReferences` never returns an error and returns exactly the
primary references registered for the digest in the local store — a
reference is in its result precisely when it is stored for that digest with
itself as its primary counterpart, so searchable aliases are never
included. -/
theorem listReferences_primaries (st : ImageStore) (id : String) :
    listReferences st id = Except.ok (st.getPrimaryReferences id) ∧
    ∀ r, r ∈ st.getPrimaryReferences id ↔
      ∃ e, e ∈ st.refs ∧ e.id = id ∧ e.ref.refString = e.primary.refString ∧ e.ref = r := by
  refine ⟨rfl, fun r => ?_⟩
  unfold ImageStore.getPrimaryReferences
  simp only [List.mem_map, List.mem_filter, Bool.and_eq_true, beq_iff_eq]
  constructor
  · rintro ⟨e, ⟨⟨he, hid, hps⟩, hr⟩⟩
    exact ⟨e, he, hid, hps, hr⟩
  · rintro ⟨e, he, hid, hps, hr⟩
    exact ⟨e, ⟨he, hid, hps⟩, hr⟩

/-! ## C2 -/

/-- The walk of the claim-side history reconstruction produces one item per
history entry. -/
theorem historySpecWalk_length (layers : List Int) :
    ∀ (l : List OciHistoryEntry) (c : Nat), (historySpecWalk layers l c).length = l.length := by
  intro l
  induction l with
  | nil => intro c; rfl
  | cons e rest ih =>
    intro c
    unfold historySpecWalk
    simp [ih]

/-- Reversal preserves the number of non-empty-layer entries. -/
theorem nonEmptyCount_reverse (l : List OciHistoryEntry) :
    nonEmptyCount l.reverse = nonEmptyCount l := by
  unfold nonEmptyCount
  induction l with
  | nil => rfl
  | cons e rest ih =>
    simp only [List.reverse_cons, List.filter_append, List.length_append, ih, List.filter_cons]
    cases e.emptyLayer <;> simp [Nat.add_comm]

/-- Characterization of the history loop: with the layer pointer `j` within
bounds, the loop succeeds exactly when the number of non-empty entries is
`j + 1`, producing the claim-side walk; with more non-empty entries it fails
with the too-few-layers error, with fewer it fails with the too-many-layers
error. -/
theorem imageHistoryLoop_eq (layers : List Int) :
    ∀ (l : List OciHistoryEntry) (j : Int), -1 ≤ j → j ≤ (layers.length : Int) - 1 →
      imageHistoryLoop layers l j =
        (if (nonEmptyCount l : Int) = j + 1 then
          Except.ok (historySpecWalk layers l (((layers.length : Int) - 1 - j).toNat))
        else if j + 1 < (nonEmptyCount l : Int) then
          Except.error (Err.other historyTooFewMsg)
        else Except.error (Err.other historyTooManyMsg)) := by
  intro l
  induction l with
  | nil =>
    intro j h1 h2
    have h0 : nonEmptyCount ([] : List OciHistoryEntry) = 0 := rfl
    unfold imageHistoryLoop
    rw [h0]
    by_cases hj : j = -1
    · subst hj
      norm_num [historySpecWalk]
    · rw [if_pos hj, if_neg (show ¬ ((0 : Nat) : Int) = j + 1 by omega),
        if_neg (show ¬ j + 1 < ((0 : Nat) : Int) by omega)]
  | cons e rest ih =>
    intro j h1 h2
    unfold imageHistoryLoop
    cases he : e.emptyLayer with
    | true =>
      simp only [if_true]
      have hcount : nonEmptyCount (e :: rest) = nonEmptyCount rest := by
        unfold nonEmptyCount
        simp [List.filter_cons, he]
      rw [ih j h1 h2, hcount]
      by_cases hc : (nonEmptyCount rest : Int) = j + 1
      · simp only [if_pos hc]
        simp [historySpecWalk, he]
      · simp only [if_neg hc]
        by_cases hlt : j + 1 < (nonEmptyCount rest : Int)
        · simp only [if_pos hlt]
        · simp only [if_neg hlt]
    | false =>
      simp only [Bool.false_eq_true, if_false]
      have hcount : nonEmptyCount (e :: rest) = nonEmptyCount rest + 1 := by
        unfold nonEmptyCount
        simp [List.filter_cons, he]
      rw [hcount]
      by_cases hneg : j < 0
      · rw [if_pos hneg]
        have hj : j = -1 := by omega
        subst hj
        rw [if_neg (by omega), if_pos (by omega)]
      · rw [if_neg hneg]
        have hlt : j.toNat < layers.length := by omega
        rw [List.get?_eq_get hlt]
        rw [ih (j - 1) (by omega) (by omega)]
        by_cases hc : ((nonEmptyCount rest + 1 : Nat) : Int) = j + 1
        · simp only [if_pos (show (nonEmptyCount rest : Int) = (j - 1) + 1 by omega),
            if_pos hc]
          simp only [historySpecWalk, he, Bool.false_eq_true, if_false]
          have e1 : layers.length - 1 - (((layers.length : Int) - 1 - j).toNat) = j.toNat := by
            omega
          have e2 : (((layers.length : Int) - 1 - (j - 1)).toNat) =
              (((layers.length : Int) - 1 - j).toNat) + 1 := by
            omega
          rw [e1, e2, List.get?_eq_get hlt]
          simp [he]
        · simp only [if_neg (show ¬ (nonEmptyCount rest : Int) = (j - 1) + 1 by omega),
            if_neg hc]
          by_cases hlt2 : j + 1 < ((nonEmptyCount rest + 1 : Nat) : Int)
          · simp only [if_pos (show (j - 1) + 1 < (nonEmptyCount rest : Int) by omega),
              if_pos hlt2]
          · simp only [if_neg (show ¬ (j - 1) + 1 < (nonEmptyCount rest : Int) by omega),
              if_neg hlt2]

/-- C2: `ImageHistory` produces exactly one item per OCI history entry, in
reverse (top-most-first) order, assigning each non-empty-layer item the size
of the manifest layer at a pointer walked downward from the last index
(decremented only on non-empty entries), size 0 to empty-layer items, the
config digest as ID only at output index 0 and the `<missing>` placeholder
elsewhere; it fails with the integrity error for too few manifest layers
when the pointer would go below zero, and with the integrity error for too
many manifest layers when the pointer does not end at exactly `-1`. -/
theorem imageHistory_characterized (hist : List OciHistoryEntry) (layers : List Int)
    (d : String) :
    imageHistory hist layers d =
      (if nonEmptyCount hist = layers.length then Except.ok (historySpec hist layers d)
       else if layers.length < nonEmptyCount hist then
         Except.error (Err.other historyTooFewMsg)
       else Except.error (Err.other historyTooManyMsg)) ∧
    (historySpec hist layers d).length = hist.length := by
  constructor
  · unfold imageHistory historySpec
    rw [imageHistoryLoop_eq layers hist.reverse ((layers.length : Int) - 1) (by omega)
      (by omega)]
    rw [nonEmptyCount_reverse]
    have harg : (((layers.length : Int) - 1 - ((layers.length : Int) - 1)).toNat) = 0 := by
      omega
    rw [harg]
    by_cases hc : nonEmptyCount hist = layers.length
    · rw [if_pos (by omega), if_pos hc]
      cases hw : historySpecWalk layers hist.reverse 0 <;> rfl
    · rw [if_neg (by omega), if_neg hc]
      by_cases hlt : layers.length < nonEmptyCount hist
      · rw [if_pos (by omega), if_pos hlt]
      · rw [if_neg (by omega), if_neg hlt]
  · unfold historySpec
    cases hw : historySpecWalk layers hist.reverse 0 with
    | nil =>
      have := historySpecWalk_length layers hist.reverse 0
      rw [hw] at this
      simp at this
      simp [this]
    | cons x xs =>
      have := historySpecWalk_length layers hist.reverse 0
      rw [hw] at this
      simpa using this

/-! ## Removal helper lemmas -/

/-- Shape of a successful primary selection: the returned digest and matched
reference are the ones given. -/
theorem checkPrimary_ok_eq (st : ImageStore) (i : String) (m : NamedRef) (id : String)
    (a p : NamedRef) (h : checkPrimary st i m = Except.ok (id, a, p)) : i = id ∧ m = a := by
  unfold checkPrimary at h
  split at h
  · cases hl : st.getPrimaryReferences i with
    | nil => rw [hl] at h; cases h
    | cons r rs =>
      rw [hl] at h
      injection h with h'
      exact ⟨congrArg Prod.fst h', congrArg (fun x => x.2.1) h'⟩
  · cases hpr : st.getPrimaryReference m with
    | error e => rw [hpr] at h; cases h
    | ok q =>
      rw [hpr] at h
      injection h with h'
      exact ⟨congrArg Prod.fst h', congrArg (fun x => x.2.1) h'⟩

/-- A successful resolution factors through the primary selection at its own
result values. -/
theorem checkReference_ok_checkPrimary (st : ImageStore) (dr dn s : String) (id : String)
    (a p : NamedRef) (h : checkReference st dr dn s = Except.ok (id, a, p)) :
    checkPrimary st id a = Except.ok (id, a, p) := by
  unfold checkReference at h
  cases hp : parse s with
  | error e => rw [hp] at h; cases h
  | ok r =>
    rw [hp] at h
    dsimp only at h
    cases hs : st.search r with
    | ok pr =>
      rw [hs] at h
      obtain ⟨i, m⟩ := pr
      obtain ⟨h1, h2⟩ := checkPrimary_ok_eq st i m id a p h
      subst h1
      subst h2
      exact h
    | error e =>
      rw [hs] at h
      dsimp only at h
      split at h
      · cases h
      · split at h
        · cases h
        · cases hq : parse (addDefaultRegistryIfMissing s dr dn) with
          | error e2 => rw [hq] at h; cases h
          | ok r2 =>
            rw [hq] at h
            dsimp only at h
            cases hs2 : st.search r2 with
            | error e2 => rw [hs2] at h; cases h
            | ok pr2 =>
              rw [hs2] at h
              obtain ⟨i, m⟩ := pr2
              obtain ⟨h1, h2⟩ := checkPrimary_ok_eq st i m id a p h
              subst h1
              subst h2
              exact h

/-- An identity-style resolution implies the digest has at least one primary
reference, and the returned primary is among them. -/
theorem checkPrimary_identity_facts (st : ImageStore) (id : String) (a p : NamedRef)
    (h : checkPrimary st id a = Except.ok (id, a, p))
    (hid : isNamedOnly a = true ∨ isPrefixOfStr a.refString id = true) :
    st.getPrimaryReferences id ≠ [] ∧ p ∈ st.getPrimaryReferences id := by
  unfold checkPrimary at h
  rw [if_pos hid] at h
  cases hl : st.getPrimaryReferences id with
  | nil => rw [hl] at h; cases h
  | cons r rs =>
    rw [hl] at h
    injection h with h'
    have hp : p = r := (congrArg (fun x => x.2.2) h').symm
    rw [hp]
    exact ⟨List.cons_ne_nil r rs, List.mem_cons_self r rs⟩

/-- When every remote removal succeeds, the identity-removal loop succeeds,
removes each reference from the local index (a left fold of removals) and
issues one remote call per reference, in order. -/
theorem removeImageLoop_all_ok (env : RemoveEnv) (id : String) :
    ∀ (l : List NamedRef) (st : ImageStore),
      (∀ r ∈ l, env.clientRemove r.refString = none) →
      removeImageLoop env id st l =
        (Except.ok (), l.foldl (fun t q => t.removeReference id q) st,
          l.map NamedRef.refString) := by
  intro l
  induction l with
  | nil => intro st h; rfl
  | cons r rs ih =>
    intro st h
    unfold removeImageLoop
    rw [h r (List.mem_cons_self r rs),
      ih (st.removeReference id r) (fun q hq => h q (List.mem_cons_of_mem r hq))]
    rfl

/-- When the remote removal of `r` is the first failure, the identity-removal
loop stops there: it propagates that error, the local index has exactly the
earlier references removed, and the remote calls are the earlier references
followed by the failing one. -/
theorem removeImageLoop_first_fail (env : RemoveEnv) (id : String) :
    ∀ (l1 : List NamedRef) (st : ImageStore) (r : NamedRef) (l2 : List NamedRef) (e : Err),
      (∀ q ∈ l1, env.clientRemove q.refString = none) →
      env.clientRemove r.refString = some e →
      removeImageLoop env id st (l1 ++ r :: l2) =
        (Except.error e, l1.foldl (fun t q => t.removeReference id q) st,
          l1.map NamedRef.refString ++ [r.refString]) := by
  intro l1
  induction l1 with
  | nil =>
    intro st r l2 e h1 h2
    rw [List.nil_append]
    unfold removeImageLoop
    rw [h2]
    rfl
  | cons q qs ih =>
    intro st r l2 e h1 h2
    rw [List.cons_append]
    unfold removeImageLoop
    rw [h1 q (List.mem_cons_self q qs),
      ih (st.removeReference id q) r l2 e (fun x hx => h1 x (List.mem_cons_of_mem q hx)) h2]
    rfl

/-- The reference index after a left fold of removals for one digest: keep
exactly the entries that are not for that digest or whose reference string is
not among the removed ones. -/
theorem foldl_removeReference_refs (id : String) :
    ∀ (l : List NamedRef) (st : ImageStore),
      (l.foldl (fun t q => t.removeReference id q) st).refs =
        st.refs.filter
          (fun e => !(e.id == id && l.any (fun q => e.ref.refString == q.refString))) := by
  intro l
  induction l with
  | nil =>
    intro st
    simp
  | cons q qs ih =>
    intro st
    rw [List.foldl_cons, ih]
    unfold ImageStore.removeReference
    dsimp only
    rw [List.filter_filter]
    apply List.filter_congr
    intro e he
    cases h1 : (e.id == id) <;>
      cases h2 : (e.ref.refString == q.refString) <;>
        simp [h1, h2, List.any_cons]

/-- Removing every primary reference of a digest leaves the digest with no
primary references. -/
theorem getPrimaryReferences_after_removeAll (st : ImageStore) (id : String) :
    (((st.getPrimaryReferences id).foldl (fun t q => t.removeReference id q)
        st).getPrimaryReferences id) = [] := by
  have hrefs := foldl_removeReference_refs id (st.getPrimaryReferences id) st
  unfold ImageStore.getPrimaryReferences at hrefs ⊢
  rw [hrefs, List.filter_filter]
  rw [List.map_eq_nil_iff, List.filter_eq_nil_iff]
  intro e he
  cases h1 : (e.id == id) <;> cases h2 : (e.ref.refString == e.primary.refString) <;>
    simp [h1, h2]
  exact ⟨e.ref, e, he, eq_of_beq h1, eq_of_beq h2, rfl, rfl⟩

/-- Removing a reference does not touch the metadata cache. -/
theorem removeReference_cache (st : ImageStore) (id : String) (r : NamedRef) :
    (st.removeReference id r).cache = st.cache := rfl

/-- The identity-removal loop does not touch the metadata cache. -/
theorem removeImageLoop_cache (env : RemoveEnv) (id : String) :
    ∀ (l : List NamedRef) (st : ImageStore),
      ((removeImageLoop env id st l).2.1).cache = st.cache := by
  intro l
  induction l with
  | nil => intro st; rfl
  | cons r rs ih =>
    intro st
    unfold removeImageLoop
    cases env.clientRemove r.refString with
    | some e => rfl
    | none => exact ih (st.removeReference id r)

/-- Evicting a cache entry does not touch the reference index. -/
theorem clearCtrdImageInfo_refs (st : ImageStore) (id : String) :
    (st.clearCtrdImageInfo id).refs = st.refs := rfl

/-- The deferred cleanup does not touch the reference index. -/
theorem deferredCleanup_refs (st : ImageStore) (id : String) :
    (deferredCleanup st id).refs = st.refs := by
  unfold deferredCleanup
  split <;> rfl

/-- The deferred cleanup preserves every digest's primary-reference list. -/
theorem deferredCleanup_getPrimaryReferences (st : ImageStore) (id id' : String) :
    (deferredCleanup st id).getPrimaryReferences id' = st.getPrimaryReferences id' := by
  unfold ImageStore.getPrimaryReferences
  rw [deferredCleanup_refs]

/-- After evicting a digest's cache entry, its metadata lookup misses. -/
theorem clearCtrdImageInfo_getCtrdImageInfo (st : ImageStore) (id : String) :
    (st.clearCtrdImageInfo id).getCtrdImageInfo id = none := by
  unfold ImageStore.clearCtrdImageInfo ImageStore.getCtrdImageInfo
  dsimp only
  have : ∀ (c : List (String × CtrdImageInfo)),
      (c.filter (fun p => !(p.1 == id))).find? (fun p => p.1 == id) = none := by
    intro c
    induction c with
    | nil => rfl
    | cons p ps ih =>
      cases hp : (p.1 == id) with
      | true => simp [List.filter_cons, hp, ih]
      | false => simp [List.filter_cons, hp, List.find?_cons, ih]
  rw [this]
  rfl

/-! ## Concrete fixtures for removal claims -/

/-- A remote client whose removals always succeed. -/
def envAllOk : RemoveEnv := ⟨fun _ => none⟩

/-- A tagged primary reference under locator `a.com/busybox`. -/
def c4RefA : NamedRef := ⟨"a.com/busybox", some "1.0", none⟩

/-- A searchable digest alias under the distinct locator `b.com/busybox`. -/
def c4RefB : NamedRef := ⟨"b.com/busybox", none, some "sha256:mmm"⟩

/-- The digest of the C4 counterexample image. -/
def c4Id : String := "sha256:aaa111"

/-- A store whose single image has one primary reference (one locator) and a
searchable alias under a second locator — the state the source's own comment
(image_bridge.go lines 703-706) describes. -/
def c4Store : ImageStore :=
  ⟨[⟨c4Id, c4RefA, c4RefA⟩, ⟨c4Id, c4RefA, c4RefB⟩], [(c4Id, ⟨c4Id, 5, "amd64", "linux", 100⟩)]⟩

/-- Two same-locator primary references for the C4 witness image. -/
def c4wRefA : NamedRef := ⟨"r.io/lib/app", some "1", none⟩

/-- The digest-form primary reference of the C4 witness image. -/
def c4wRefB : NamedRef := ⟨"r.io/lib/app", none, some "sha256:m1"⟩

/-- The digest of the C4 witness image. -/
def c4wId : String := "sha256:bbb222"

/-- A store whose single image has two primary references sharing one
locator. -/
def c4wStore : ImageStore :=
  ⟨[⟨c4wId, c4wRefA, c4wRefA⟩, ⟨c4wId, c4wRefB, c4wRefB⟩],
    [(c4wId, ⟨c4wId, 9, "amd64", "linux", 50⟩)]⟩

/-- The digest-form primary reference of the C5 image. -/
def c5Ref : NamedRef := ⟨"r.io/busybox", none, some "sha256:ddd"⟩

/-- The digest of the C5 image. -/
def c5Id : String := "sha256:ccc333"

/-- A store whose single image was pulled by digest: its only reference is
the digest-form primary. -/
def c5Store : ImageStore :=
  ⟨[⟨c5Id, c5Ref, c5Ref⟩], [(c5Id, ⟨c5Id, 7, "amd64", "linux", 42⟩)]⟩

/-- The tagged primary reference of the C7 witness image. -/
def c7Ref : NamedRef := ⟨"r.io/team/img", some "2", none⟩

/-- The digest of the C7 witness image. -/
def c7Id : String := "sha256:eee444"

/-- A store whose single image has one tagged primary reference and a cached
metadata entry. -/
def c7Store : ImageStore :=
  ⟨[⟨c7Id, c7Ref, c7Ref⟩], [(c7Id, ⟨c7Id, 3, "amd64", "linux", 77⟩)]⟩

/-! ## C4 -/

/-- C4 counterexample: in `c4Store` the primary references of the digest span
a single locator, so the claim requires identity removal without force to
proceed and remove every primary reference; but the code's refusal check
inspects all references (`GetReferences`), the searchable alias contributes
a second locator, and the call refuses with the must-force error, removing
nothing. -/
theorem removeImage_identity_locator_counterexample :
    uniqueLocatorReference (c4Store.getPrimaryReferences c4Id) = true ∧
    (removeImage envAllOk c4Store "reg.io" "library" "sha256:aaa" false).res =
      Except.error (Err.other (mustForceMsg "sha256:aaa")) ∧
    (removeImage envAllOk c4Store "reg.io" "library" "sha256:aaa" false).store.getPrimaryReferences
      c4Id = c4Store.getPrimaryReferences c4Id :=
  ⟨rfl, rfl, rfl⟩

/-- C4 (amended): for an identity-style input, `RemoveImage` without force
refuses exactly when the set of all references of the digest (primary and
searchable) spans more than one distinct locator; when it proceeds (force
set, or a unique locator among all references), it runs the removal loop
over the digest's primary references: if every remote removal succeeds, all
of them are removed (none remains) with one remote call each in order, and
the first remote failure stops the loop, propagating that error with exactly
the earlier references removed. -/
theorem removeImage_identity_removal (env : RemoveEnv) (st : ImageStore) (dr dn s : String)
    (force : Bool) (id : String) (a p : NamedRef)
    (hcr : checkReference st dr dn s = Except.ok (id, a, p))
    (hid : isNamedOnly a = true ∨ isPrefixOfStr a.refString id = true) :
    ((force = false ∧ uniqueLocatorReference (st.getReferences id) = false) →
      removeImage env st dr dn s force =
        ⟨Except.error (Err.other (mustForceMsg s)), st, [], []⟩) ∧
    ((force = true ∨ uniqueLocatorReference (st.getReferences id) = true) →
      removeImage env st dr dn s force =
        ⟨(removeImageLoop env id st (st.getPrimaryReferences id)).1,
          deferredCleanup (removeImageLoop env id st (st.getPrimaryReferences id)).2.1 id, [],
          (removeImageLoop env id st (st.getPrimaryReferences id)).2.2⟩) ∧
    ((∀ r ∈ st.getPrimaryReferences id, env.clientRemove r.refString = none) →
      (removeImageLoop env id st (st.getPrimaryReferences id)).1 = Except.ok () ∧
      ((removeImageLoop env id st (st.getPrimaryReferences id)).2.1).getPrimaryReferences id =
        [] ∧
      (removeImageLoop env id st (st.getPrimaryReferences id)).2.2 =
        (st.getPrimaryReferences id).map NamedRef.refString) ∧
    (∀ l1 r l2 e, st.getPrimaryReferences id = l1 ++ r :: l2 →
      (∀ q ∈ l1, env.clientRemove q.refString = none) →
      env.clientRemove r.refString = some e →
      (removeImageLoop env id st (st.getPrimaryReferences id)).1 = Except.error e ∧
      (removeImageLoop env id st (st.getPrimaryReferences id)).2.2 =
        l1.map NamedRef.refString ++ [r.refString]) := by
  have hne :=
    (checkPrimary_identity_facts st id a p (checkReference_ok_checkPrimary st dr dn s id a p hcr)
      hid).1
  have hclean : deferredCleanup st id = st := by
    unfold deferredCleanup
    rw [if_neg]
    intro hc
    exact hne (by rwa [List.isEmpty_iff] at hc)
  refine ⟨?_, ?_, ?_, ?_⟩
  · rintro ⟨hf, hu⟩
    unfold removeImage
    rw [hcr]
    dsimp only
    rw [if_pos hid, if_pos ⟨hf, hu⟩, hclean]
  · intro hgo
    unfold removeImage
    rw [hcr]
    dsimp only
    rw [if_pos hid, if_neg ?hneg]
    case hneg =>
      rintro ⟨hf, hu⟩
      cases hgo with
      | inl h => rw [h] at hf; cases hf
      | inr h => rw [h] at hu; cases hu
  · intro hall
    rw [removeImageLoop_all_ok env id (st.getPrimaryReferences id) st hall]
    exact ⟨rfl, getPrimaryReferences_after_removeAll st id, rfl⟩
  · intro l1 r l2 e hsplit h1 h2
    rw [hsplit, removeImageLoop_first_fail env id l1 st r l2 e h1 h2]
    exact ⟨rfl, rfl⟩

/-- C4 witness: removing the C4 witness image by a short-ID-style input
without force — both primary references share one locator, so the loop runs,
removes both (remote then local) and leaves no primary reference. -/
theorem removeImage_identity_removal_witness :
    (removeImage envAllOk c4wStore "reg.io" "library" "sha256:bbb" false).res = Except.ok () ∧
    (removeImage envAllOk c4wStore "reg.io" "library"
        "sha256:bbb" false).store.getPrimaryReferences c4wId = [] ∧
    (removeImage envAllOk c4wStore "reg.io" "library" "sha256:bbb" false).remoteCalls =
      ["r.io/lib/app:1", "r.io/lib/app@sha256:m1"] := by
  have h := removeImage_identity_removal envAllOk c4wStore "reg.io" "library" "sha256:bbb" false
    c4wId ⟨"sha256", some "bbb", none⟩ c4wRefA rfl (Or.inr rfl)
  rw [h.2.1 (Or.inr rfl)]
  exact ⟨rfl, rfl, rfl⟩

/-! ## C5 -/

/-- C5 counterexample: removing the image of `c5Store` by its digest-form
primary reference `r.io/busybox@sha256:ddd`. Under the claim the digest
suffix is stripped first, the stripped reference `r.io/busybox` differs from
the primary reference, so only a local untag with an "untag" event and no
remote contact would happen. The code strips the tag (absent here), keeps
the digest, finds the reference equal to the primary and fully removes it: a
remote call is issued, no event is emitted, and the removal succeeds. -/
theorem removeImage_named_strip_counterexample :
    (removeImage envAllOk c5Store "reg.io" "library" "r.io/busybox@sha256:ddd" false).remoteCalls =
      ["r.io/busybox@sha256:ddd"] ∧
    (removeImage envAllOk c5Store "reg.io" "library" "r.io/busybox@sha256:ddd" false).events =
      [] ∧
    (removeImage envAllOk c5Store "reg.io" "library" "r.io/busybox@sha256:ddd" false).res =
      Except.ok () ∧
    ¬ ((removeImage envAllOk c5Store "reg.io" "library"
          "r.io/busybox@sha256:ddd" false).remoteCalls = [] ∧
        (removeImage envAllOk c5Store "reg.io" "library"
          "r.io/busybox@sha256:ddd" false).events =
          [("r.io/busybox", "r.io/busybox", "untag")]) :=
  ⟨rfl, rfl, rfl, by
    intro hc
    have h1 := hc.1
    rw [show (removeImage envAllOk c5Store "reg.io" "library"
      "r.io/busybox@sha256:ddd" false).remoteCalls = ["r.io/busybox@sha256:ddd"] from rfl] at h1
    cases h1⟩

/-- C5 (amended): for a named (non-identity) input, `RemoveImage` strips the
tag from the matched reference when a digest suffix is also present (the
digest form is kept; a pure digest reference is unchanged); if the resulting
reference string equals the primary reference's, the reference is removed
from the local index and from the remote store (one remote call, no event);
otherwise it is removed from the local index only — no remote call — and a
single "untag" audit event is emitted. -/
theorem removeImage_named_removal (env : RemoveEnv) (st : ImageStore) (dr dn s : String)
    (force : Bool) (id : String) (a p : NamedRef)
    (hcr : checkReference st dr dn s = Except.ok (id, a, p))
    (hid : ¬ (isNamedOnly a = true ∨ isPrefixOfStr a.refString id = true)) :
    (p.refString = (trimTagForDigest a).refString →
      removeImage env st dr dn s force =
        ⟨(match env.clientRemove p.refString with
          | some e => Except.error e
          | none => Except.ok ()),
          deferredCleanup (st.removeReference id p) id, [], [p.refString]⟩) ∧
    (¬ p.refString = (trimTagForDigest a).refString →
      removeImage env st dr dn s force =
        ⟨Except.ok (), deferredCleanup (st.removeReference id (trimTagForDigest a)) id,
          [((trimTagForDigest a).refString, (trimTagForDigest a).refString, "untag")], []⟩) := by
  constructor
  · intro heq
    unfold removeImage
    rw [hcr]
    dsimp only
    rw [if_neg hid, if_pos heq]
    cases env.clientRemove p.refString <;> rfl
  · intro hne
    unfold removeImage
    rw [hcr]
    dsimp only
    rw [if_neg hid, if_neg hne]

/-- C5 witness: the full-removal side of the amended claim at the `c5Store`
scenario — the digest-form reference equals the primary, so the image is
removed remotely and locally. -/
theorem removeImage_named_removal_witness :
    (removeImage envAllOk c5Store "reg.io" "library" "r.io/busybox@sha256:ddd" true).res =
      Except.ok () ∧
    (removeImage envAllOk c5Store "reg.io" "library" "r.io/busybox@sha256:ddd" true).remoteCalls =
      ["r.io/busybox@sha256:ddd"] := by
  have h := (removeImage_named_removal envAllOk c5Store "reg.io" "library"
    "r.io/busybox@sha256:ddd" true c5Id c5Ref c5Ref rfl (by decide)).1 rfl
  rw [h]
  exact ⟨rfl, rfl⟩

/-! ## C7 -/

/-- The deferred cleanup evicts the digest's cache entry exactly on the
zero-primaries side: applied to any store whose cache agrees with the
pre-removal store, the entry is gone when no primary reference remains and
untouched otherwise. -/
theorem deferredCleanup_spec (st base : ImageStore) (id : String) (hc : base.cache = st.cache) :
    ((deferredCleanup base id).getPrimaryReferences id = [] →
      (deferredCleanup base id).getCtrdImageInfo id = none) ∧
    ((deferredCleanup base id).getPrimaryReferences id ≠ [] →
      (deferredCleanup base id).getCtrdImageInfo id = st.getCtrdImageInfo id) := by
  constructor
  · intro h
    rw [deferredCleanup_getPrimaryReferences] at h
    unfold deferredCleanup
    rw [if_pos (by rw [List.isEmpty_iff]; exact h)]
    exact clearCtrdImageInfo_getCtrdImageInfo base id
  · intro h
    rw [deferredCleanup_getPrimaryReferences] at h
    unfold deferredCleanup
    rw [if_neg (by rw [List.isEmpty_iff]; exact h)]
    unfold ImageStore.getCtrdImageInfo
    rw [hc]

/-- C7: after every `RemoveImage` invocation whose reference resolution
succeeded — whichever removal branch ran and whether or not it errored — the
resolved digest's cached metadata entry is evicted when zero primary
references remain for it, and is left untouched (equal to its pre-call
value) when at least one primary reference remains. -/
theorem removeImage_cache_eviction (env : RemoveEnv) (st : ImageStore) (dr dn s : String)
    (force : Bool) (id : String) (a p : NamedRef)
    (hcr : checkReference st dr dn s = Except.ok (id, a, p)) :
    ((removeImage env st dr dn s force).store.getPrimaryReferences id = [] →
      (removeImage env st dr dn s force).store.getCtrdImageInfo id = none) ∧
    ((removeImage env st dr dn s force).store.getPrimaryReferences id ≠ [] →
      (removeImage env st dr dn s force).store.getCtrdImageInfo id = st.getCtrdImageInfo id) := by
  unfold removeImage
  rw [hcr]
  dsimp only
  split
  · split
    · exact deferredCleanup_spec st st id rfl
    · exact deferredCleanup_spec st _ id
        (removeImageLoop_cache env id (st.getPrimaryReferences id) st)
  · split
    · cases env.clientRemove p.refString with
      | some e => exact deferredCleanup_spec st _ id rfl
      | none => exact deferredCleanup_spec st _ id rfl
    · exact deferredCleanup_spec st _ id rfl

/-- C7 witness: removing the only (primary) tag of the C7 witness image
leaves zero primary references, and the digest's cache entry is evicted. -/
theorem removeImage_cache_eviction_witness :
    (removeImage envAllOk c7Store "reg.io" "library"
      "r.io/team/img:2" false).store.getCtrdImageInfo c7Id = none :=
  (removeImage_cache_eviction envAllOk c7Store "reg.io" "library" "r.io/team/img:2" false
    c7Id c7Ref c7Ref rfl).1 rfl

/-! ## C6 -/

/-- C6: for a target that parses after qualification, `AddTag`'s validation
fails — always with an invalid-parameter error — exactly in two cases: the
(default-tagged) target carries a digest, or the target is registered as the
primary reference of some image (its `getPrimaryReference` is itself); when
neither holds (unregistered target, or registered only as a searchable
alias), validation passes and `AddTag` proceeds past validation; when either
holds, `AddTag` returns the validation error. -/
theorem addTag_validation (env : TagEnv) (st : ImageStore) (dr dn srcImg target : String)
    (r : NamedRef) (hp : parse (addDefaultRegistryIfMissing target dr dn) = Except.ok r) :
    ((∃ m, validateTagReference st (withDefaultTagIfMissing r) =
        Except.error (Err.invalidParam m)) ↔
      ((withDefaultTagIfMissing r).dig.isSome = true ∨
        ∃ q, st.getPrimaryReference (withDefaultTagIfMissing r) = Except.ok q ∧
          q.refString = (withDefaultTagIfMissing r).refString)) ∧
    (∀ e, validateTagReference st (withDefaultTagIfMissing r) = Except.error e →
      ∃ m, e = Err.invalidParam m) ∧
    (validateTagReference st (withDefaultTagIfMissing r) = Except.ok () →
      addTag env st dr dn srcImg target =
        addTagAfterValidation env st dr dn (withDefaultTagIfMissing r) srcImg) ∧
    (∀ e, validateTagReference st (withDefaultTagIfMissing r) = Except.error e →
      addTag env st dr dn srcImg target = Except.error e) := by
  have hpt : parseTagReference (addDefaultRegistryIfMissing target dr dn) =
      Except.ok (withDefaultTagIfMissing r) := by
    unfold parseTagReference
    rw [hp]
  refine ⟨?_, ?_, ?_, ?_⟩
  · unfold validateTagReference
    by_cases hd : (withDefaultTagIfMissing r).dig.isSome = true
    · rw [if_pos hd]
      constructor
      · intro _
        exact Or.inl hd
      · intro _
        exact ⟨_, rfl⟩
    · rw [if_neg hd]
      cases hq : st.getPrimaryReference (withDefaultTagIfMissing r) with
      | error e =>
        constructor
        · rintro ⟨m, hm⟩
          cases hm
        · rintro (h | ⟨q, hq2, _⟩)
          · exact absurd h hd
          · cases hq2
      | ok q =>
        dsimp only
        by_cases he : q.refString = (withDefaultTagIfMissing r).refString
        · rw [if_pos he]
          constructor
          · intro _
            exact Or.inr ⟨q, rfl, he⟩
          · intro _
            exact ⟨_, rfl⟩
        · rw [if_neg he]
          constructor
          · rintro ⟨m, hm⟩
            cases hm
          · rintro (h | ⟨q', hq2, he2⟩)
            · exact absurd h hd
            · injection hq2 with h'
              rw [← h'] at he2
              exact absurd he2 he
  · intro e hval
    unfold validateTagReference at hval
    split at hval
    · injection hval with h'
      exact ⟨_, h'.symm⟩
    · cases hq : st.getPrimaryReference (withDefaultTagIfMissing r) with
      | error e2 => rw [hq] at hval; cases hval
      | ok q =>
        rw [hq] at hval
        dsimp only at hval
        split at hval
        · injection hval with h'
          exact ⟨_, h'.symm⟩
        · cases hval
  · intro hval
    unfold addTag
    dsimp only
    rw [hpt]
    dsimp only
    rw [hval]
  · intro e hval
    unfold addTag
    dsimp only
    rw [hpt]
    dsimp only
    rw [hval]

/-- The primary reference of the C6 witness image. -/
def c6Prim : NamedRef := ⟨"r.io/lib/app", some "1", none⟩

/-- A non-digested reference registered only as a searchable alias of the C6
witness image. -/
def c6Alias : NamedRef := ⟨"r.io/lib/alias", some "2", none⟩

/-- The digest of the C6 witness image. -/
def c6Id : String := "sha256:fff555"

/-- A store where `c6Alias` is registered as a searchable alias whose
primary counterpart is `c6Prim`. -/
def c6Store : ImageStore :=
  ⟨[⟨c6Id, c6Prim, c6Prim⟩, ⟨c6Id, c6Prim, c6Alias⟩],
    [(c6Id, ⟨c6Id, 4, "amd64", "linux", 60⟩)]⟩

/-- A tag environment whose image fetch fails (irrelevant to validation). -/
def c6Env : TagEnv := ⟨fun _ => Except.error Err.notFound, fun _ _ => none⟩

/-- C6 witness: tagging onto a target registered only as a searchable alias
passes validation, and `AddTag` proceeds past validation. -/
theorem addTag_validation_witness :
    validateTagReference c6Store (withDefaultTagIfMissing c6Alias) = Except.ok () ∧
    addTag c6Env c6Store "reg.example" "library" "src-img" "r.io/lib/alias:2" =
      addTagAfterValidation c6Env c6Store "reg.example" "library"
        (withDefaultTagIfMissing c6Alias) "src-img" := by
  have h := addTag_validation c6Env c6Store "reg.example" "library" "src-img"
    "r.io/lib/alias:2" c6Alias rfl
  exact ⟨rfl, h.2.2.1 rfl⟩

/-! ## Listing helper lemmas -/

/-- In an association list with distinct keys, `find?` by key returns the
member with that key. -/
theorem find?_of_mem_nodup :
    ∀ (c : List (String × CtrdImageInfo)), (c.map Prod.fst).Nodup →
      ∀ (k : String) (v : CtrdImageInfo), (k, v) ∈ c →
        c.find? (fun p => p.1 == k) = some (k, v) := by
  intro c
  induction c with
  | nil =>
    intro _ k v hm
    cases hm
  | cons p ps ih =>
    intro hnd k v hm
    rw [List.map_cons, List.nodup_cons] at hnd
    cases hm with
    | head =>
      rw [List.find?_cons_of_pos]
      simp
    | tail _ hmem =>
      rw [List.find?_cons_of_neg, ih hnd.2 k v hmem]
      simp only [beq_iff_eq]
      intro hc
      exact hnd.1 (hc ▸ List.mem_map_of_mem Prod.fst hmem)

/-- Under a well-formed cache, converting a cached entry's digest succeeds
and yields exactly the assembled `ImageInfo` of that entry. -/
theorem containerdImageToImageInfo_wf (st : ImageStore) (hwf : cacheWF st) :
    ∀ v ∈ st.listCtrdImageInfo,
      containerdImageToImageInfo st v.ID = Except.ok (mkImageInfo st v) := by
  intro v hv
  unfold ImageStore.listCtrdImageInfo at hv
  obtain ⟨p, hp, hpv⟩ := List.mem_map.mp hv
  have hid : (p.2).ID = p.1 := hwf.2 p hp
  unfold containerdImageToImageInfo ImageStore.getCtrdImageInfo
  rw [← hpv, hid,
    find?_of_mem_nodup st.cache hwf.1 p.1 p.2 (by rwa [show (p.1, p.2) = p from rfl])]
  rfl

/-- The per-entry listing body with no reference filter and both bounds
present keeps an entry exactly when its creation instant lies strictly
between the since and before bounds. -/
theorem listImagesEntry_bounds (matcher : String → String → Bool) (st : ImageStore)
    (tb ts : Int) (v : CtrdImageInfo)
    (hconv : containerdImageToImageInfo st v.ID = Except.ok (mkImageInfo st v)) :
    listImagesEntry matcher st [] (some tb) (some ts) v =
      (if ts < v.created ∧ v.created < tb then some (mkImageInfo st v) else none) := by
  unfold listImagesEntry boundSkip
  dsimp only
  by_cases hb : v.created < tb
  · have e1 : atOrAfter v.created tb = false := by
      unfold atOrAfter
      simp only [Bool.or_eq_false_iff, beq_eq_false_iff_ne, ne_eq, decide_eq_false_iff_not]
      omega
    by_cases hs : ts < v.created
    · have e2 : atOrBefore v.created ts = false := by
        unfold atOrBefore
        simp only [Bool.or_eq_false_iff, beq_eq_false_iff_ne, ne_eq, decide_eq_false_iff_not]
        omega
      rw [e1, e2]
      simp only [Bool.false_eq_true, if_false, hconv]
      simp [hs, hb]
    · have e2 : atOrBefore v.created ts = true := by
        unfold atOrBefore
        simp only [Bool.or_eq_true, beq_iff_eq, decide_eq_true_eq]
        omega
      rw [e1, e2]
      simp only [Bool.false_eq_true, if_false, if_true]
      rw [if_neg (by intro hc; exact hs hc.1)]
  · have e1 : atOrAfter v.created tb = true := by
      unfold atOrAfter
      simp only [Bool.or_eq_true, beq_iff_eq, decide_eq_true_eq]
      omega
    rw [e1]
    simp only [if_true]
    rw [if_neg (by intro hc; exact hb hc.2)]

/-- Folding the bounded listing body over entries that all convert: the
result is the strictly-between entries, converted, in order. -/
theorem filterMap_bounds_eq (matcher : String → String → Bool) (st : ImageStore)
    (tb ts : Int) :
    ∀ (l : List CtrdImageInfo),
      (∀ v ∈ l, containerdImageToImageInfo st v.ID = Except.ok (mkImageInfo st v)) →
      l.filterMap (listImagesEntry matcher st [] (some tb) (some ts)) =
        (l.filter (fun v => decide (ts < v.created) && decide (v.created < tb))).map
          (mkImageInfo st) := by
  intro l
  induction l with
  | nil => intro _; rfl
  | cons v vs ih =>
    intro h
    rw [List.filterMap_cons, List.filter_cons,
      listImagesEntry_bounds matcher st tb ts v (h v (List.mem_cons_self v vs)),
      ih (fun x hx => h x (List.mem_cons_of_mem v hx))]
    by_cases hk : ts < v.created ∧ v.created < tb
    · rw [if_pos hk, if_pos (by simp [hk.1, hk.2])]
      rfl
    · rw [if_neg hk, if_neg (by simpa using hk)]

/-! ## C8 -/

/-- C8: `ListImages` fails with the invalid-parameter error when the filter
set has more than one `before` value, or (passing that check) more than one
`since` value; with a single `before` filter resolving to an image of
creation instant Tb and a single `since` filter resolving to creation
instant Ts (and no reference filter), the result is exactly the cached
entries with creation instant strictly after Ts and strictly before Tb, in
cache order — entries at either boundary, including the boundary filter
images themselves, are excluded. -/
theorem listImages_before_since (matcher : String → String → Bool) (st : ImageStore)
    (dr dn : String) (f : FilterArgs) (hwf : cacheWF st) (href : f.reference = []) :
    (f.before.length > 1 → listImages matcher st dr dn f =
      Except.error (Err.invalidParam "can't use before filter more than one")) ∧
    (f.before.length ≤ 1 → f.since.length > 1 → listImages matcher st dr dn f =
      Except.error (Err.invalidParam "can't use since filter more than one")) ∧
    (∀ b s bi si, f.before = [b] → f.since = [s] →
      getImage st dr dn b = Except.ok bi → getImage st dr dn s = Except.ok si →
      listImages matcher st dr dn f =
        Except.ok ((st.listCtrdImageInfo.filter
          (fun v => decide (si.createdAt < v.created) && decide (v.created < bi.createdAt))).map
          (mkImageInfo st))) := by
  refine ⟨?_, ?_, ?_⟩
  · intro h
    unfold listImages
    rw [if_pos h]
  · intro h1 h2
    unfold listImages
    rw [if_neg (by omega), if_pos h2]
  · intro b s bi si hb hs hgb hgs
    unfold listImages
    rw [hb, hs, href]
    rw [if_neg (by simp), if_neg (by simp)]
    dsimp only
    rw [hgb]
    dsimp only [Except.map]
    rw [hgs]
    dsimp only [Except.map]
    rw [filterMap_bounds_eq matcher st bi.createdAt si.createdAt st.listCtrdImageInfo
      (containerdImageToImageInfo_wf st hwf)]

/-- First image of the C8 witness store. -/
def c8Ref1 : NamedRef := ⟨"r.io/lib/one", some "1", none⟩

/-- Second image of the C8 witness store. -/
def c8Ref2 : NamedRef := ⟨"r.io/lib/two", some "2", none⟩

/-- Third image of the C8 witness store. -/
def c8Ref3 : NamedRef := ⟨"r.io/lib/three", some "3", none⟩

/-- Metadata of the first C8 witness image (created at 10). -/
def c8Info1 : CtrdImageInfo := ⟨"sha256:c8a", 1, "amd64", "linux", 10⟩

/-- Metadata of the second C8 witness image (created at 20). -/
def c8Info2 : CtrdImageInfo := ⟨"sha256:c8b", 2, "amd64", "linux", 20⟩

/-- Metadata of the third C8 witness image (created at 30). -/
def c8Info3 : CtrdImageInfo := ⟨"sha256:c8c", 3, "amd64", "linux", 30⟩

/-- A store with three images created at instants 10, 20 and 30. -/
def c8Store : ImageStore :=
  ⟨[⟨"sha256:c8a", c8Ref1, c8Ref1⟩, ⟨"sha256:c8b", c8Ref2, c8Ref2⟩,
      ⟨"sha256:c8c", c8Ref3, c8Ref3⟩],
    [("sha256:c8a", c8Info1), ("sha256:c8b", c8Info2), ("sha256:c8c", c8Info3)]⟩

/-- C8 witness: with `since` the image created at 10 and `before` the image
created at 30, listing returns exactly the image created at 20. -/
theorem listImages_before_since_witness :
    listImages (fun _ _ => false) c8Store "reg.io" "library"
        ⟨["r.io/lib/three:3"], ["r.io/lib/one:1"], []⟩ =
      Except.ok [mkImageInfo c8Store c8Info2] := by
  have h := (listImages_before_since (fun _ _ => false) c8Store "reg.io" "library"
    ⟨["r.io/lib/three:3"], ["r.io/lib/one:1"], []⟩ (by decide) rfl).2.2
    "r.io/lib/three:3" "r.io/lib/one:1" (mkImageInfo c8Store c8Info3)
    (mkImageInfo c8Store c8Info1) rfl rfl rfl rfl
  rw [h]
  rfl

/-! ## C9 -/

/-- Claim-side reference filtering of one listed entry (spec §4.9): keep the
entry exactly when at least one of its tag-form or digest-form names matches
at least one pattern, replacing both name lists by their matching subsets. -/
def referenceFilterSpec (matcher : String → String → Bool) (pats : List String)
    (info : ImageInfo) : Option ImageInfo :=
  let tags := info.repoTags.filter (fun x => pats.any (fun pt => matcher pt x))
  let digs := info.repoDigests.filter (fun x => pats.any (fun pt => matcher pt x))
  if tags = [] ∧ digs = [] then none
  else some { info with repoTags := tags, repoDigests := digs }

/-- The per-entry listing body with a nonempty reference filter and no
bounds agrees with the claim-side reference filtering. -/
theorem listImagesEntry_reference (matcher : String → String → Bool) (st : ImageStore)
    (pats : List String) (hp : pats ≠ []) (v : CtrdImageInfo)
    (hconv : containerdImageToImageInfo st v.ID = Except.ok (mkImageInfo st v)) :
    listImagesEntry matcher st pats none none v =
      referenceFilterSpec matcher pats (mkImageInfo st v) := by
  have hie : pats.isEmpty = false := by
    cases pats with
    | nil => exact absurd rfl hp
    | cons a as => rfl
  unfold listImagesEntry boundSkip referenceFilterSpec filterReference
  dsimp only
  simp only [Bool.false_eq_true, if_false, hconv, hie]
  by_cases ht : (mkImageInfo st v).repoTags.filter
      (fun x => pats.any (fun pt => matcher pt x)) = []
  · by_cases hd : (mkImageInfo st v).repoDigests.filter
        (fun x => pats.any (fun pt => matcher pt x)) = []
    · rw [if_neg (by rw [ht, hd]; simp), if_pos ⟨ht, hd⟩]
    · rw [if_pos (Or.inr (List.length_pos.mpr hd)), if_neg (fun hc => hd hc.2)]
  · rw [if_pos (Or.inl (List.length_pos.mpr ht)), if_neg (fun hc => ht hc.1)]

/-- Folding the reference-filtering listing body over entries that all
convert: the result is the claim-side reference filtering, entry by entry. -/
theorem filterMap_reference_eq (matcher : String → String → Bool) (st : ImageStore)
    (pats : List String) (hp : pats ≠ []) :
    ∀ (l : List CtrdImageInfo),
      (∀ v ∈ l, containerdImageToImageInfo st v.ID = Except.ok (mkImageInfo st v)) →
      l.filterMap (listImagesEntry matcher st pats none none) =
        l.filterMap (fun v => referenceFilterSpec matcher pats (mkImageInfo st v)) := by
  intro l
  induction l with
  | nil => intro _; rfl
  | cons v vs ih =>
    intro h
    rw [List.filterMap_cons, List.filterMap_cons,
      listImagesEntry_reference matcher st pats hp v (h v (List.mem_cons_self v vs)),
      ih (fun x hx => h x (List.mem_cons_of_mem v hx))]

/-- C9: with one or more reference filter patterns (and no other filters),
`ListImages` keeps an entry exactly when at least one of its tag-form or
digest-form names matches at least one pattern (matching is an OR across
patterns), replaces its reported tag and digest lists by the matching
subsets, and drops the entry entirely when both filtered lists are empty. -/
theorem listImages_reference_filter (matcher : String → String → Bool) (st : ImageStore)
    (dr dn : String) (f : FilterArgs) (hwf : cacheWF st)
    (hb : f.before = []) (hs : f.since = []) (hr : f.reference ≠ []) :
    listImages matcher st dr dn f =
      Except.ok (st.listCtrdImageInfo.filterMap
        (fun v => referenceFilterSpec matcher f.reference (mkImageInfo st v))) := by
  unfold listImages
  rw [hb, hs]
  rw [if_neg (by simp), if_neg (by simp)]
  dsimp only
  rw [filterMap_reference_eq matcher st f.reference hr st.listCtrdImageInfo
    (containerdImageToImageInfo_wf st hwf)]

/-- First image of the C9 witness store: a tagged primary reference and a
searchable digest alias. -/
def c9Ref1 : NamedRef := ⟨"r.io/lib/one", some "1", none⟩

/-- The digest alias of the first C9 witness image. -/
def c9Ref1d : NamedRef := ⟨"r.io/lib/one", none, some "sha256:z1"⟩

/-- Second image of the C9 witness store. -/
def c9Ref2 : NamedRef := ⟨"r.io/lib/two", some "2", none⟩

/-- Metadata of the first C9 witness image. -/
def c9Info1 : CtrdImageInfo := ⟨"sha256:c9a", 1, "amd64", "linux", 10⟩

/-- Metadata of the second C9 witness image. -/
def c9Info2 : CtrdImageInfo := ⟨"sha256:c9b", 2, "amd64", "linux", 20⟩

/-- A store with two images; the first has a tag and a digest alias, the
second only a tag. -/
def c9Store : ImageStore :=
  ⟨[⟨"sha256:c9a", c9Ref1, c9Ref1⟩, ⟨"sha256:c9a", c9Ref1, c9Ref1d⟩,
      ⟨"sha256:c9b", c9Ref2, c9Ref2⟩],
    [("sha256:c9a", c9Info1), ("sha256:c9b", c9Info2)]⟩

/-- C9 witness: filtering by the exact pattern `r.io/lib/one:1` (with an
exact-match matcher) keeps only the first image, with its digest list
stripped to the empty matching subset and the second image dropped. -/
theorem listImages_reference_filter_witness :
    listImages (fun p x => p == x) c9Store "reg.io" "library" ⟨[], [], ["r.io/lib/one:1"]⟩ =
      Except.ok [{ mkImageInfo c9Store c9Info1 with
        repoTags := ["r.io/lib/one:1"], repoDigests := [] }] := by
  rw [listImages_reference_filter (fun p x => p == x) c9Store "reg.io" "library"
    ⟨[], [], ["r.io/lib/one:1"]⟩ (by decide) rfl rfl (by decide)]
  rfl
